import Mathlib

/-! Verification of the ImgVault native-messaging host
    (src/nextgen-extension/native-host/src-tauri/src/main.rs).

    The host reads length-prefixed JSON frames from standard input, dispatches
    them (one action: "download", delegated to the external yt-dlp tool), and
    writes length-prefixed JSON responses on standard output.  We embed the
    framed channel as functions on byte lists (bytes are naturals below 256),
    the dispatcher as a pure function over the parse result, and the subprocess
    as an oracle mapping a program name and argument list to either a spawn
    error or a captured exit status / stdout / stderr triple. -/

/-- Mirrors `struct NativeMessage` (main.rs lines 16-21): the decoded request.
    `action` is a required string; `url` and `output_path` are optional. -/
structure NativeMessage where
  action : String
  url : Option String
  output_path : Option String
deriving Repr, DecidableEq

/-- Mirrors `struct NativeResponse` (main.rs lines 23-29).  The Rust field
    `file_path` is serialized under the wire name "filePath". -/
structure NativeResponse where
  success : Bool
  message : Option String
  file_path : Option String
deriving Repr, DecidableEq

/-- The captured result of `Command::output()`: exit-status success flag plus
    decoded stdout and stderr text. -/
structure ProcOutput where
  status_success : Bool
  stdout : String
  stderr : String
deriving Repr, DecidableEq

/-- The operating system's process-spawning facility, abstracted: given a
    program name and its argument list it either fails to spawn (`error` with
    the OS error text) or returns the captured output. -/
abbrev ExecOracle := String → List String → Except String ProcOutput

/-- One attempted child-process invocation, recorded for the theorems stating
    that no subprocess is spawned on a given path. -/
structure Invocation where
  program : String
  args : List String
deriving Repr, DecidableEq

/-- A character with Unicode property White_Space, as tested by Rust's
    `str::trim`. -/
def rustWhitespace (c : Char) : Bool :=
  decide (c.toNat ∈ [0x09, 0x0A, 0x0B, 0x0C, 0x0D, 0x20, 0x85, 0xA0, 0x1680,
    0x2028, 0x2029, 0x202F, 0x205F, 0x3000])
  || decide (0x2000 ≤ c.toNat ∧ c.toNat ≤ 0x200A)

/-- Rust `str::trim`: drop White_Space characters from both ends. -/
def rustTrim (s : String) : String :=
  String.mk (((s.toList.dropWhile rustWhitespace).reverse.dropWhile
    rustWhitespace).reverse)

/-- The exact argument list built for yt-dlp in `download_video`
    (main.rs lines 137-145). -/
def ytDlpArgs (url output_path : String) : List String :=
  [url, "-o", output_path, "--no-playlist", "--quiet", "--print",
    "after_move:filepath"]

/-- Mirrors `fn download_video` (main.rs lines 136-174): run yt-dlp; on spawn
    failure report it; on nonzero exit report the captured stderr; on zero exit
    the trimmed stdout is the tool-reported final file path, empty meaning the
    tool produced no path. -/
def download_video (exec : ExecOracle) (url output_path : String) :
    Except String String :=
  match exec "yt-dlp" (ytDlpArgs url output_path) with
  | .error e => .error ("Failed to execute yt-dlp: " ++ e)
  | .ok output =>
    if output.status_success then
      let file_path := rustTrim output.stdout
      if file_path = "" then
        .error "yt-dlp did not return a file path"
      else
        .ok file_path
    else
      .error ("yt-dlp failed: " ++ output.stderr)

/-- What one loop iteration of `handle_native_messaging` produces for a decoded
    message: the wire response, the child-process invocations attempted, and
    the `eprintln!` diagnostic log lines. -/
structure HandleOut where
  response : NativeResponse
  invocations : List Invocation
  log : List String
deriving Repr, DecidableEq

/-- The dispatch on a successfully parsed request (main.rs lines 260-301):
    route on `action`; for "download" require both `url` and `output_path`,
    then call `download_video` (recording the single spawn attempt it makes);
    any other action is answered "Unknown action" with the action echoed in the
    diagnostic log, and no process is invoked. -/
def handleParsed (exec : ExecOracle) (m : NativeMessage) : HandleOut :=
  if m.action = "download" then
    match m.url, m.output_path with
    | some url, some output_path =>
      match download_video exec url output_path with
      | .ok file_path =>
        ⟨⟨true, some "Download complete", some file_path⟩,
          [⟨"yt-dlp", ytDlpArgs url output_path⟩],
          ["[NATIVE] Processing download: " ++ url ++ " -> " ++ output_path,
            "[NATIVE] Download successful: " ++ file_path]⟩
      | .error e =>
        ⟨⟨false, some e, none⟩,
          [⟨"yt-dlp", ytDlpArgs url output_path⟩],
          ["[NATIVE] Processing download: " ++ url ++ " -> " ++ output_path,
            "[NATIVE] Download failed: " ++ e]⟩
    | _, _ =>
      ⟨⟨false, some "Missing url or output_path", none⟩, [],
        ["[NATIVE] Missing url or output_path"]⟩
  else
    ⟨⟨false, some "Unknown action", none⟩, [],
      ["[NATIVE] Unknown action: " ++ m.action]⟩

/-! ### A model of `serde_json::from_str::<NativeMessage>`

serde_json is an external library; the dispatcher calls
`serde_json::from_str::<NativeMessage>(&msg)` (main.rs line 258).  We model the
derived deserializer for this struct: the input must be one JSON object, known
keys are exactly the field names "action", "url" and "output_path" (no serde
rename attribute is present), unknown keys are skipped with their values,
duplicate known keys are an error, `action` must be a string and is required,
`url` and `output_path` may be a string or `null` and default to `None` when
absent, and trailing non-whitespace after the object is an error.  String
escapes cover the JSON simple escapes and `\uXXXX` (surrogate-pair combining is
simplified to a single code-unit conversion; no claim depends on it).  Number
syntax inside skipped values is checked only loosely.  Recursive helpers carry
a fuel argument; callers pass one more than the remaining input length, and
since every recursive call consumes at least one character the fuel never runs
out. -/

/-- JSON insignificant whitespace. -/
def jsonWs (c : Char) : Bool :=
  c == ' ' || c == '\t' || c == '\n' || c == '\r'

/-- Drop leading JSON whitespace. -/
def skipWs : List Char → List Char
  | [] => []
  | c :: cs => if jsonWs c then skipWs cs else c :: cs

/-- Value of a hexadecimal digit. -/
def hexVal (c : Char) : Option Nat :=
  if '0' ≤ c ∧ c ≤ '9' then some (c.toNat - 48)
  else if 'a' ≤ c ∧ c ≤ 'f' then some (c.toNat - 87)
  else if 'A' ≤ c ∧ c ≤ 'F' then some (c.toNat - 55)
  else none

/-- The simple JSON string escapes. -/
def escChar (c : Char) : Option Char :=
  if c = '"' then some '"'
  else if c = '\\' then some '\\'
  else if c = '/' then some '/'
  else if c = 'b' then some (Char.ofNat 8)
  else if c = 'f' then some (Char.ofNat 12)
  else if c = 'n' then some '\n'
  else if c = 'r' then some '\r'
  else if c = 't' then some '\t'
  else none

/-- Parse the body of a JSON string literal, the opening quote already
    consumed; returns the decoded characters and the rest of the input. -/
def parseStringBody : List Char → Except String (List Char × List Char)
  | [] => .error "EOF while parsing a string"
  | '"' :: cs => .ok ([], cs)
  | '\\' :: 'u' :: h1 :: h2 :: h3 :: h4 :: cs =>
    (match hexVal h1, hexVal h2, hexVal h3, hexVal h4 with
     | some a, some b, some c, some d =>
       (parseStringBody cs).map
         (fun p => (Char.ofNat (((a * 16 + b) * 16 + c) * 16 + d) :: p.1, p.2))
     | _, _, _, _ => .error "invalid escape")
  | '\\' :: e :: cs =>
    (match escChar e with
     | some ch => (parseStringBody cs).map (fun p => (ch :: p.1, p.2))
     | none => .error "invalid escape")
  | c :: cs =>
    if c.toNat < 0x20 then .error "control character in string"
    else (parseStringBody cs).map (fun p => (c :: p.1, p.2))

/-- Characters that may occur in a JSON number token. -/
def numberChar (c : Char) : Bool :=
  c.isDigit || c == '-' || c == '+' || c == '.' || c == 'e' || c == 'E'

mutual

/-- Skip one JSON value (used for ignored unknown fields). -/
def skipValue : Nat → List Char → Except String (List Char)
  | 0, _ => .error "recursion limit exceeded"
  | fuel + 1, cs =>
    match skipWs cs with
    | [] => .error "EOF while parsing a value"
    | '"' :: cs2 => (parseStringBody cs2).map (fun p => p.2)
    | 't' :: 'r' :: 'u' :: 'e' :: cs2 => .ok cs2
    | 'f' :: 'a' :: 'l' :: 's' :: 'e' :: cs2 => .ok cs2
    | 'n' :: 'u' :: 'l' :: 'l' :: cs2 => .ok cs2
    | '[' :: cs2 => skipArrayFirst fuel cs2
    | '\x7b' :: cs2 => skipObjectFirst fuel cs2
    | c :: cs2 =>
      if numberChar c then .ok (cs2.dropWhile numberChar)
      else .error "expected value"

/-- After '[': either an immediately closed array or its first element. -/
def skipArrayFirst : Nat → List Char → Except String (List Char)
  | 0, _ => .error "recursion limit exceeded"
  | fuel + 1, cs =>
    match skipWs cs with
    | ']' :: cs2 => .ok cs2
    | cs' =>
      match skipValue fuel cs' with
      | .error e => .error e
      | .ok cs2 => skipArrayRest fuel cs2

/-- After an array element: a comma and another element, or the close. -/
def skipArrayRest : Nat → List Char → Except String (List Char)
  | 0, _ => .error "recursion limit exceeded"
  | fuel + 1, cs =>
    match skipWs cs with
    | ']' :: cs2 => .ok cs2
    | ',' :: cs2 =>
      match skipValue fuel cs2 with
      | .error e => .error e
      | .ok cs3 => skipArrayRest fuel cs3
    | _ => .error "expected comma or closing bracket"

/-- After '\x7b' in a skipped value: an empty object or its first member. -/
def skipObjectFirst : Nat → List Char → Except String (List Char)
  | 0, _ => .error "recursion limit exceeded"
  | fuel + 1, cs =>
    match skipWs cs with
    | '\x7d' :: cs2 => .ok cs2
    | cs' => skipObjectMember fuel cs'

/-- One member (string key, colon, value) of a skipped object, then the rest. -/
def skipObjectMember : Nat → List Char → Except String (List Char)
  | 0, _ => .error "recursion limit exceeded"
  | fuel + 1, cs =>
    match skipWs cs with
    | '"' :: cs2 =>
      match parseStringBody cs2 with
      | .error e => .error e
      | .ok p =>
        match skipWs p.2 with
        | ':' :: cs3 =>
          match skipValue fuel cs3 with
          | .error e => .error e
          | .ok cs4 =>
            match skipWs cs4 with
            | '\x7d' :: cs5 => .ok cs5
            | ',' :: cs5 => skipObjectMember fuel cs5
            | _ => .error "expected comma or closing brace"
        | _ => .error "expected colon"
    | _ => .error "key must be a string"

end

/-- Accumulator for the three known fields while parsing the request object.
    The outer `Option` records whether the key was seen (for duplicate
    detection); the inner one is the value, `none` for JSON `null`. -/
structure PartialMsg where
  action : Option String
  url : Option (Option String)
  output_path : Option (Option String)
deriving Repr, DecidableEq

/-- The empty accumulator. -/
def PartialMsg.init : PartialMsg := ⟨none, none, none⟩

/-- Parse the value of a known field: a JSON string or `null` (anything else is
    a serde type error for `String` / `Option<String>`). -/
def parseFieldValue (cs : List Char) : Except String (Option String × List Char) :=
  match skipWs cs with
  | '"' :: cs2 => (parseStringBody cs2).map (fun p => (some (String.mk p.1), p.2))
  | 'n' :: 'u' :: 'l' :: 'l' :: cs2 => .ok (none, cs2)
  | _ => .error "invalid type"

/-- Record one object member into the accumulator: known keys take a string (or
    null where the field is optional) and may not repeat; unknown keys have
    their value skipped. -/
def setField (acc : PartialMsg) (key : String) (cs : List Char) :
    Except String (PartialMsg × List Char) :=
  if key = "action" then
    if acc.action.isSome then .error "duplicate field `action`"
    else
      match parseFieldValue cs with
      | .ok (some v, r) => .ok (⟨some v, acc.url, acc.output_path⟩, r)
      | .ok (none, _) => .error "invalid type: null, expected a string"
      | .error e => .error e
  else if key = "url" then
    if acc.url.isSome then .error "duplicate field `url`"
    else (parseFieldValue cs).map (fun p => (⟨acc.action, some p.1, acc.output_path⟩, p.2))
  else if key = "output_path" then
    if acc.output_path.isSome then .error "duplicate field `output_path`"
    else (parseFieldValue cs).map (fun p => (⟨acc.action, acc.url, some p.1⟩, p.2))
  else
    (skipValue (cs.length + 1) cs).map (fun r => (acc, r))

/-- Parse the members of the request object, starting at a member; returns the
    filled accumulator and the input after the closing brace. -/
def parseMembers : Nat → PartialMsg → List Char → Except String (PartialMsg × List Char)
  | 0, _, _ => .error "recursion limit exceeded"
  | fuel + 1, acc, cs =>
    match skipWs cs with
    | '"' :: cs2 =>
      match parseStringBody cs2 with
      | .error e => .error e
      | .ok p =>
        match skipWs p.2 with
        | ':' :: cs3 =>
          match setField acc (String.mk p.1) cs3 with
          | .error e => .error e
          | .ok q =>
            match skipWs q.2 with
            | ',' :: cs4 => parseMembers fuel q.1 cs4
            | '\x7d' :: cs4 => .ok (q.1, cs4)
            | _ => .error "expected comma or closing brace"
        | _ => .error "expected colon"
    | _ => .error "key must be a string"

/-- Models `serde_json::from_str::<NativeMessage>` (main.rs line 258): decode
    one JSON object into a `NativeMessage` per the derived deserializer. -/
def from_str_NativeMessage (s : String) : Except String NativeMessage :=
  match skipWs s.toList with
  | [] => .error "EOF while parsing a value"
  | '\x7b' :: cs =>
    match
      (match skipWs cs with
       | '\x7d' :: cs2 => Except.ok (PartialMsg.init, cs2)
       | cs' => parseMembers (cs'.length + 1) PartialMsg.init cs') with
    | .error e => .error e
    | .ok (acc, rest) =>
      if skipWs rest = [] then
        match acc.action with
        | some a => .ok ⟨a, acc.url.getD none, acc.output_path.getD none⟩
        | none => .error "missing field `action`"
      else .error "trailing characters"
  | _ => .error "invalid type: expected struct NativeMessage"

/-- One full dispatch step on the decoded text of a frame (main.rs lines
    255-311): log the received message, parse it, and either route the request
    or answer with a parse-failure response. -/
def handle_message (exec : ExecOracle) (msg : String) : HandleOut :=
  match from_str_NativeMessage msg with
  | .ok m =>
    let h := handleParsed exec m
    ⟨h.response, h.invocations, ("[NATIVE] Received message: " ++ msg) :: h.log⟩
  | .error e =>
    ⟨⟨false, some ("Failed to parse message: " ++ e), none⟩, [],
      [("[NATIVE] Received message: " ++ msg),
        "[NATIVE] Failed to parse message: " ++ e]⟩

/-! ### The framed channel

Bytes are naturals (below 256 on the real wire).  The loop reads a 4-byte
length with `u32::from_ne_bytes` and writes one with `u32::to_ne_bytes`
(main.rs lines 237-247 and 315-329); both sides use the host-native byte
order, which on the x86-64 Windows target is little-endian, so we fix the
little-endian layout — the round-trip theorems are in any case independent of
which common order is chosen, because the same conversion pair is used for
reading and writing. -/

/-- `u32::to_ne_bytes` (little-endian model); naturals at or above `2^32` are
    truncated, matching the Rust `as u32` cast at the call site. -/
def u32_to_ne_bytes (n : Nat) : List Nat :=
  [n % 256, (n / 256) % 256, (n / 65536) % 256, (n / 16777216) % 256]

/-- `u32::from_ne_bytes` (little-endian model). -/
def u32_from_ne_bytes (b0 b1 b2 b3 : Nat) : Nat :=
  b0 + 256 * b1 + 65536 * b2 + 16777216 * b3

/-- The channel's send path (main.rs lines 313-334): write the 4-byte length
    prefix of the body, then the body. -/
def writeFrame (body : List Nat) : List Nat :=
  u32_to_ne_bytes body.length ++ body

/-- The channel's receive path (main.rs lines 236-247): read exactly 4 bytes as
    the length, then exactly that many body bytes; `none` models the
    `read_exact` failure that breaks the loop (stream closed / short read). -/
def readFrame (input : List Nat) : Option (List Nat × List Nat) :=
  match input with
  | b0 :: b1 :: b2 :: b3 :: rest =>
    let len := u32_from_ne_bytes b0 b1 b2 b3
    if len ≤ rest.length then some (rest.take len, rest.drop len) else none
  | _ => none

/-- A continuation byte `10xxxxxx`. -/
def utf8Cont (b : Nat) : Bool := decide (0x80 ≤ b ∧ b ≤ 0xBF)

/-- Constraint on the second byte of a multi-byte UTF-8 sequence, ruling out
    overlong encodings, surrogates and code points above U+10FFFF, as Rust's
    strict `String::from_utf8` does. -/
def utf8Byte2OK (b b2 : Nat) : Bool :=
  if b = 0xE0 then decide (0xA0 ≤ b2 ∧ b2 ≤ 0xBF)
  else if b = 0xED then decide (0x80 ≤ b2 ∧ b2 ≤ 0x9F)
  else if b = 0xF0 then decide (0x90 ≤ b2 ∧ b2 ≤ 0xBF)
  else if b = 0xF4 then decide (0x80 ≤ b2 ∧ b2 ≤ 0x8F)
  else utf8Cont b2

/-- Models `String::from_utf8` (main.rs line 250): strict UTF-8 decoding of the
    frame body, `none` on any invalid sequence. -/
def utf8Decode : List Nat → Option (List Char)
  | [] => some []
  | b :: rest =>
    if b < 0x80 then
      (utf8Decode rest).map (fun cs => Char.ofNat b :: cs)
    else if 0xC2 ≤ b ∧ b ≤ 0xDF then
      match rest with
      | b2 :: rest2 =>
        if utf8Cont b2 then
          (utf8Decode rest2).map
            (fun cs => Char.ofNat ((b - 0xC0) * 0x40 + (b2 - 0x80)) :: cs)
        else none
      | _ => none
    else if 0xE0 ≤ b ∧ b ≤ 0xEF then
      match rest with
      | b2 :: b3 :: rest2 =>
        if utf8Byte2OK b b2 && utf8Cont b3 then
          (utf8Decode rest2).map
            (fun cs => Char.ofNat ((b - 0xE0) * 0x1000 + (b2 - 0x80) * 0x40
              + (b3 - 0x80)) :: cs)
        else none
      | _ => none
    else if 0xF0 ≤ b ∧ b ≤ 0xF4 then
      match rest with
      | b2 :: b3 :: b4 :: rest2 =>
        if utf8Byte2OK b b2 && utf8Cont b3 && utf8Cont b4 then
          (utf8Decode rest2).map
            (fun cs => Char.ofNat ((b - 0xF0) * 0x40000 + (b2 - 0x80) * 0x1000
              + (b3 - 0x80) * 0x40 + (b4 - 0x80)) :: cs)
        else none
      | _ => none
    else none

/-- The message loop (main.rs lines 235-337) with an explicit fuel bound on the
    number of iterations: read one frame (or stop at end of stream), silently
    skip a body that is not valid UTF-8, otherwise dispatch and emit the
    response.  Every iteration consumes at least the 4 length bytes, so fuel
    exceeding the input length is never exhausted. -/
def loopFuel (exec : ExecOracle) : Nat → List Nat → List NativeResponse
  | 0, _ => []
  | fuel + 1, input =>
    match readFrame input with
    | none => []
    | some (body, rest) =>
      match utf8Decode body with
      | none => loopFuel exec fuel rest
      | some cs =>
        (handle_message exec (String.mk cs)).response :: loopFuel exec fuel rest

/-- Mirrors `fn handle_native_messaging` (main.rs lines 231-340): the sequence
    of responses written for a given input byte stream. -/
def handle_native_messaging (exec : ExecOracle) (input : List Nat) :
    List NativeResponse :=
  loopFuel exec (input.length + 1) input

/-- An environment whose spawns always fail (tool not installed). -/
def execFail : ExecOracle := fun _ _ => .error "program not found"

/-- An environment where yt-dlp succeeds and prints a final path (with the
    trailing newline of `--print`) that differs from the requested output
    path, as happens when the tool corrects the extension. -/
def execOkPath : ExecOracle := fun _ _ => .ok ⟨true, "final.mp4\n", ""⟩

/-- An environment where yt-dlp exits nonzero with diagnostic text on
    stderr. -/
def execNonzero : ExecOracle := fun _ _ => .ok ⟨false, "", "boom"⟩

/-- An environment where yt-dlp exits zero but prints nothing. -/
def execNoPath : ExecOracle := fun _ _ => .ok ⟨true, " \n", ""⟩

/-- A download request whose output path is sent under the camel-case key
    "outputPath" (braces written as their character escapes). -/
def camelKeyJson : String :=
  "\x7b\"action\":\"download\",\"url\":\"u\",\"outputPath\":\"p\"\x7d"

/-- A download request whose output path is sent under the snake-case key
    "output_path", the field name of the Rust struct. -/
def snakeKeyJson : String :=
  "\x7b\"action\":\"download\",\"url\":\"u\",\"output_path\":\"p\"\x7d"

/-- A request JSON object in which the action field is absent. -/
def absentActionJson : String := "\x7b\"url\":\"u\"\x7d"

/-! ### A canonical JSON encoding of a download request

To state the acceptance of download requests universally over the url and
output-path strings, we need a JSON text carrying two arbitrary strings; this
is the serializer side of the wire schema (serde_json on the extension side).
A character is escaped when JSON requires it: quote, backslash, and the
control characters, the latter written in `\u00XX` form (serde_json uses short
escapes for five of them, an equivalent encoding of the same strings). -/

/-- The lowercase hexadecimal digit for `n < 16`. -/
def hexDigitChar (n : Nat) : Char :=
  if n < 10 then Char.ofNat (48 + n) else Char.ofNat (87 + n)

/-- JSON escaping of one character: quote and backslash get a backslash
    escape, control characters a `\u00XX` escape, anything else is itself. -/
def jsonEscapeChar (c : Char) : List Char :=
  if c = '"' then ['\\', '"']
  else if c = '\\' then ['\\', '\\']
  else if c.toNat < 0x20 then
    ['\\', 'u', '0', '0', hexDigitChar (c.toNat / 16), hexDigitChar (c.toNat % 16)]
  else [c]

/-- JSON escaping of a character list. -/
def jsonEscape : List Char → List Char
  | [] => []
  | c :: cs => jsonEscapeChar c ++ jsonEscape cs

/-- The characters of the canonical download-request JSON object carrying
    `u` under "url" and `p` under "output_path" (braces written as their
    character escapes). -/
def downloadJsonChars (u p : String) : List Char :=
  "\x7b\"action\":\"download\",\"url\":\"".toList
    ++ jsonEscape u.toList
    ++ "\",\"output_path\":\"".toList
    ++ jsonEscape p.toList
    ++ "\"\x7d".toList

/-- The canonical download-request JSON text for url `u` and output path
    `p`. -/
def mkDownloadRequestJson (u p : String) : String :=
  String.mk (downloadJsonChars u p)

/-! ### Helper lemmas -/

/-- Reading back the four length bytes of `n` recovers `n` below `2^32`. -/
theorem u32_bytes_round (n : Nat) (h : n < 4294967296) :
    u32_from_ne_bytes (n % 256) ((n / 256) % 256) ((n / 65536) % 256)
      ((n / 16777216) % 256) = n := by
  unfold u32_from_ne_bytes
  omega

/-- A written frame followed by anything reads back as its body and the rest. -/
theorem readFrame_writeFrame (body rest : List Nat)
    (h : body.length < 4294967296) :
    readFrame (writeFrame body ++ rest) = some (body, rest) := by
  show readFrame ((u32_to_ne_bytes body.length ++ body) ++ rest) = _
  have hshape : (u32_to_ne_bytes body.length ++ body) ++ rest
      = body.length % 256 :: (body.length / 256) % 256
        :: (body.length / 65536) % 256 :: (body.length / 16777216) % 256
        :: (body ++ rest) := by
    simp [u32_to_ne_bytes]
  rw [hshape]
  show (if u32_from_ne_bytes (body.length % 256) ((body.length / 256) % 256)
      ((body.length / 65536) % 256) ((body.length / 16777216) % 256)
        ≤ (body ++ rest).length
    then some ((body ++ rest).take (u32_from_ne_bytes (body.length % 256)
      ((body.length / 256) % 256) ((body.length / 65536) % 256)
      ((body.length / 16777216) % 256)),
      (body ++ rest).drop (u32_from_ne_bytes (body.length % 256)
      ((body.length / 256) % 256) ((body.length / 65536) % 256)
      ((body.length / 16777216) % 256)))
    else none) = some (body, rest)
  rw [u32_bytes_round body.length h]
  rw [if_pos (by simp)]
  rw [List.take_left, List.drop_left]

/-- A successful frame read leaves at least four fewer bytes. -/
theorem readFrame_some_length {input body rest : List Nat}
    (h : readFrame input = some (body, rest)) : rest.length + 4 ≤ input.length := by
  match input with
  | [] => simp [readFrame] at h
  | [_] => simp [readFrame] at h
  | [_, _] => simp [readFrame] at h
  | [_, _, _] => simp [readFrame] at h
  | b0 :: b1 :: b2 :: b3 :: t =>
    simp only [readFrame] at h
    split at h
    · rw [Option.some.injEq, Prod.mk.injEq] at h
      obtain ⟨-, hr⟩ := h
      subst hr
      simp only [List.length_cons, List.length_drop]
      omega
    · exact absurd h (by simp)

/-- The loop result does not depend on the fuel once it exceeds the remaining
    input length. -/
theorem loopFuel_irrel (exec : ExecOracle) :
    ∀ f1 f2 input, input.length < f1 → input.length < f2 →
      loopFuel exec f1 input = loopFuel exec f2 input := by
  intro f1
  induction f1 with
  | zero => intro f2 input h1 h2; omega
  | succ f ih =>
    intro f2 input h1 h2
    match f2, h2 with
    | g + 1, h2 =>
      simp only [loopFuel]
      split
      · rfl
      · rename_i body rest hr
        have hlen := readFrame_some_length hr
        have hf : rest.length < f := by omega
        have hg : rest.length < g := by omega
        split
        · exact ih g rest hf hg
        · rw [ih g rest hf hg]

/-- One loop iteration on a well-formed frame: an invalid-UTF-8 body is
    silently skipped, a valid one is dispatched and its response emitted, and
    in both cases the loop continues on the remaining input. -/
theorem loop_step (exec : ExecOracle) (body rest : List Nat)
    (h : body.length < 4294967296) :
    handle_native_messaging exec (writeFrame body ++ rest) =
      match utf8Decode body with
      | none => handle_native_messaging exec rest
      | some cs =>
        (handle_message exec (String.mk cs)).response
          :: handle_native_messaging exec rest := by
  have hlen : rest.length < (writeFrame body ++ rest).length := by
    simp only [writeFrame, u32_to_ne_bytes, List.length_append, List.length_cons,
      List.length_nil]
    omega
  have key : loopFuel exec ((writeFrame body ++ rest).length + 1)
      (writeFrame body ++ rest)
      = match utf8Decode body with
        | none => loopFuel exec (writeFrame body ++ rest).length rest
        | some cs =>
          (handle_message exec (String.mk cs)).response
            :: loopFuel exec (writeFrame body ++ rest).length rest := by
    simp only [loopFuel, readFrame_writeFrame body rest h]
  unfold handle_native_messaging
  rw [key]
  split
  · exact loopFuel_irrel exec _ _ rest hlen (Nat.lt_succ_self _)
  · rw [loopFuel_irrel exec _ _ rest hlen (Nat.lt_succ_self _)]

/-- Dispatch on a parsed request always satisfies the response invariant:
    success implies a file path, failure implies a message. -/
theorem handleParsed_invariant (exec : ExecOracle) (m : NativeMessage) :
    ((handleParsed exec m).response.success = true →
      ((handleParsed exec m).response.file_path).isSome = true)
    ∧ ((handleParsed exec m).response.success = false →
      ((handleParsed exec m).response.message).isSome = true) := by
  unfold handleParsed
  split
  · split
    · split <;> simp
    · simp
  · simp

/-- A string-body character needing no escape parses as itself. -/
theorem parseStringBody_cons (c : Char) (L : List Char)
    (h1 : c ≠ '"') (h2 : c ≠ '\\') (h3 : ¬ c.toNat < 0x20) :
    parseStringBody (c :: L)
      = (parseStringBody L).map (fun q => (c :: q.1, q.2)) := by
  rw [parseStringBody.eq_def]
  split
  · simp_all
  · simp_all
  · simp_all
  · simp_all
  · rename_i c2 cs2 heq
    rw [List.cons.injEq] at heq
    obtain ⟨hc, hcs⟩ := heq
    subst hc
    subst hcs
    rw [if_neg h3]

/-- `hexVal` inverts `hexDigitChar` on one digit. -/
theorem hexVal_hexDigitChar (n : Nat) (h : n < 16) :
    hexVal (hexDigitChar n) = some n := by
  interval_cases n <;> rfl

/-- String-literal round trip: parsing an escaped string body followed by its
    closing quote recovers exactly the original characters. -/
theorem parseStringBody_escape (s rest : List Char) :
    parseStringBody (jsonEscape s ++ '"' :: rest) = .ok (s, rest) := by
  induction s with
  | nil => rfl
  | cons c cs ih =>
    by_cases h1 : c = '"'
    · subst h1
      show parseStringBody ('\\' :: '"' :: (jsonEscape cs ++ '"' :: rest)) = _
      show (parseStringBody (jsonEscape cs ++ '"' :: rest)).map
        (fun q => ('"' :: q.1, q.2)) = _
      rw [ih]
      rfl
    · by_cases h2 : c = '\\'
      · subst h2
        show parseStringBody ('\\' :: '\\' :: (jsonEscape cs ++ '"' :: rest)) = _
        show (parseStringBody (jsonEscape cs ++ '"' :: rest)).map
          (fun q => ('\\' :: q.1, q.2)) = _
        rw [ih]
        rfl
      · by_cases h3 : c.toNat < 0x20
        · have hesc : jsonEscapeChar c
              = ['\\', 'u', '0', '0', hexDigitChar (c.toNat / 16),
                  hexDigitChar (c.toNat % 16)] := by
            simp [jsonEscapeChar, h1, h2, h3]
          show parseStringBody (jsonEscapeChar c ++ jsonEscape cs ++ '"' :: rest) = _
          rw [hesc]
          show (match hexVal '0', hexVal '0', hexVal (hexDigitChar (c.toNat / 16)),
              hexVal (hexDigitChar (c.toNat % 16)) with
            | some a, some b, some c2, some d =>
              (parseStringBody (jsonEscape cs ++ '"' :: rest)).map
                (fun (p : List Char × List Char) =>
                  (Char.ofNat (((a * 16 + b) * 16 + c2) * 16 + d) :: p.1, p.2))
            | _, _, _, _ => Except.error "invalid escape") = _
          rw [hexVal_hexDigitChar (c.toNat / 16) (by omega)]
          rw [hexVal_hexDigitChar (c.toNat % 16) (by omega)]
          show (parseStringBody (jsonEscape cs ++ '"' :: rest)).map
              (fun (p : List Char × List Char) =>
                (Char.ofNat (((0 * 16 + 0) * 16 + c.toNat / 16) * 16
                  + c.toNat % 16) :: p.1, p.2)) = _
          rw [ih]
          show Except.ok (Char.ofNat (((0 * 16 + 0) * 16 + c.toNat / 16) * 16
            + c.toNat % 16) :: cs, rest) = _
          rw [show ((0 * 16 + 0) * 16 + c.toNat / 16) * 16 + c.toNat % 16
            = c.toNat by omega]
          rw [Char.ofNat_toNat]
        · have hesc : jsonEscapeChar c = [c] := by
            simp [jsonEscapeChar, h1, h2, h3]
          show parseStringBody (jsonEscapeChar c ++ jsonEscape cs ++ '"' :: rest) = _
          rw [hesc]
          show parseStringBody (c :: (jsonEscape cs ++ '"' :: rest)) = _
          rw [parseStringBody_cons c _ h1 h2 h3, ih]
          rfl

/-- A known field whose value is an escaped string literal parses back to that
    string. -/
theorem parseFieldValue_escape (s : String) (rest : List Char) :
    parseFieldValue ('"' :: (jsonEscape s.toList ++ '"' :: rest))
      = .ok (some s, rest) := by
  show (parseStringBody (jsonEscape s.toList ++ '"' :: rest)).map
    (fun (q : List Char × List Char) => (some (String.mk q.1), q.2)) = _
  rw [parseStringBody_escape]
  rfl

/-- The canonical request text in explicit character form. -/
theorem downloadJsonChars_form (u p : String) :
    (mkDownloadRequestJson u p).toList
      = '\x7b' :: '"' :: 'a' :: 'c' :: 't' :: 'i' :: 'o' :: 'n' :: '"' :: ':'
        :: '"' :: 'd' :: 'o' :: 'w' :: 'n' :: 'l' :: 'o' :: 'a' :: 'd' :: '"'
        :: ',' :: '"' :: 'u' :: 'r' :: 'l' :: '"' :: ':' :: '"'
        :: (jsonEscape u.toList
          ++ '"' :: ',' :: '"' :: 'o' :: 'u' :: 't' :: 'p' :: 'u' :: 't' :: '_'
            :: 'p' :: 'a' :: 't' :: 'h' :: '"' :: ':' :: '"'
          :: (jsonEscape p.toList ++ '"' :: '\x7d' :: [])) := by
  show downloadJsonChars u p = _
  simp [downloadJsonChars]

/-- For every url `u` and output path `p`, the canonical request JSON parses
    to the full download message: the snake-case key "output_path" feeds the
    `output_path` field. -/
theorem from_str_mkDownloadRequestJson (u p : String) :
    from_str_NativeMessage (mkDownloadRequestJson u p)
      = .ok ⟨"download", some u, some p⟩ := by
  have hk1 : String.mk ['a', 'c', 't', 'i', 'o', 'n'] = "action" := rfl
  have hk2 : String.mk ['u', 'r', 'l'] = "url" := rfl
  have hk3 : String.mk ['o', 'u', 't', 'p', 'u', 't', '_', 'p', 'a', 't', 'h']
      = "output_path" := rfl
  have hv1 : String.mk ['d', 'o', 'w', 'n', 'l', 'o', 'a', 'd'] = "download" := rfl
  simp only [from_str_NativeMessage, downloadJsonChars_form]
  simp [skipWs, jsonWs, parseMembers, parseStringBody, setField, parseFieldValue,
    parseStringBody_escape, parseFieldValue_escape, Except.map, PartialMsg.init,
    hk1, hk2, hk3, hv1]

/-! ### The claims -/

/-- Claim C1: for every length `len` below `2^32` and every body of exactly
    `len` bytes, writing the frame (4-byte native-order length prefix, then the
    body) and reading it back with the channel's read procedure yields the
    original body unchanged, leaving the rest of the stream intact. -/
theorem framing_round_trip (len : Nat) (body rest : List Nat)
    (hlen : body.length = len) (hbound : len < 4294967296) :
    readFrame (writeFrame body ++ rest) = some (body, rest) := by
  subst hlen
  exact readFrame_writeFrame body rest hbound

/-- Witness for C1 at a concrete three-byte body. -/
theorem framing_round_trip_witness :
    readFrame (writeFrame [1, 2, 3] ++ [7]) = some ([1, 2, 3], [7]) :=
  framing_round_trip 3 [1, 2, 3] [7] (by decide) (by decide)

/-- Claim C2: when the subprocess invocation for a well-formed download request
    exits successfully and reports final path `P` on stdout, the response is
    exactly success with message "Download complete" and filePath `P` — the
    tool-reported path, independent of the caller-supplied destination `d`. -/
theorem download_success_response (exec : ExecOracle) (m : NativeMessage)
    (u d S E P : String) (hact : m.action = "download") (hu : m.url = some u)
    (hd : m.output_path = some d)
    (hrun : exec "yt-dlp" (ytDlpArgs u d) = .ok ⟨true, S, E⟩)
    (hP : rustTrim S = P) (hne : P ≠ "") :
    (handleParsed exec m).response
      = ⟨true, some "Download complete", some P⟩ := by
  have hdv : download_video exec u d = .ok P := by
    unfold download_video
    rw [hrun]
    simp [hP, hne]
  simp [handleParsed, hact, hu, hd, hdv]

/-- Witness for C2: the tool reports "final.mp4" although the caller asked for
    "out.mp4"; the response carries the tool-reported path. -/
theorem download_success_response_witness :
    (handleParsed execOkPath ⟨"download", some "https://v", some "out.mp4"⟩).response
      = ⟨true, some "Download complete", some "final.mp4"⟩ :=
  download_success_response execOkPath
    ⟨"download", some "https://v", some "out.mp4"⟩ "https://v" "out.mp4"
    "final.mp4\n" "" "final.mp4" rfl rfl rfl rfl rfl (by decide)

/-- Claim C3: the dispatcher is total — it is a function into `HandleOut`, so
    every UTF-8 input yields a response — and on any input the parser rejects,
    the response is success=false with a message describing the parse failure,
    carried under the "Failed to parse message: " marker that no other branch
    of the dispatcher produces, and no subprocess is invoked. -/
theorem parse_failure_response (exec : ExecOracle) (msg e : String)
    (h : from_str_NativeMessage msg = .error e) :
    handle_message exec msg
      = ⟨⟨false, some ("Failed to parse message: " ++ e), none⟩, [],
          ["[NATIVE] Received message: " ++ msg,
            "[NATIVE] Failed to parse message: " ++ e]⟩ := by
  simp only [handle_message, h]

/-- Witness for C3 at the empty input, which is not valid JSON. -/
theorem parse_failure_response_witness :
    handle_message execFail ""
      = ⟨⟨false, some ("Failed to parse message: " ++ "EOF while parsing a value"),
          none⟩, [],
          ["[NATIVE] Received message: " ++ "",
            "[NATIVE] Failed to parse message: " ++ "EOF while parsing a value"]⟩ :=
  parse_failure_response execFail "" "EOF while parsing a value" rfl

/-- Claim C4: a parsed request with action "download" in which `url` or
    `output_path` is absent is answered success=false with the
    "Missing url or output_path" message, and no subprocess is spawned. -/
theorem download_missing_param (exec : ExecOracle) (m : NativeMessage)
    (hact : m.action = "download")
    (hmiss : m.url = none ∨ m.output_path = none) :
    handleParsed exec m
      = ⟨⟨false, some "Missing url or output_path", none⟩, [],
          ["[NATIVE] Missing url or output_path"]⟩ := by
  rcases hmiss with h | h
  · cases ho : m.output_path <;> simp [handleParsed, hact, h, ho]
  · cases hu : m.url <;> simp [handleParsed, hact, h, hu]

/-- Witness for C4: a download request without a url. -/
theorem download_missing_param_witness :
    handleParsed execFail ⟨"download", none, some "p"⟩
      = ⟨⟨false, some "Missing url or output_path", none⟩, [],
          ["[NATIVE] Missing url or output_path"]⟩ :=
  download_missing_param execFail ⟨"download", none, some "p"⟩ rfl (Or.inl rfl)

/-- Counterexample to C5 as stated: for a wire request whose action field is
    absent, the response is a parse failure ("missing field `action`"), not a
    message identifying the action as unknown. -/
theorem unknown_action_counterexample :
    (handle_message execFail absentActionJson).response
        = ⟨false, some "Failed to parse message: missing field `action`", none⟩
      ∧ (handle_message execFail absentActionJson).response.message
          ≠ some "Unknown action" := by
  constructor
  · rfl
  · decide

/-- Claim C5 (amended: restricted to requests whose action field is present,
    since an absent action is rejected at parse time): every parsed request
    with an action other than "download" — including the empty string — is
    answered success=false with the "Unknown action" message, the action string
    echoed in the diagnostic log line, and no process is invoked. -/
theorem unknown_action_response (exec : ExecOracle) (m : NativeMessage)
    (hact : m.action ≠ "download") :
    handleParsed exec m
      = ⟨⟨false, some "Unknown action", none⟩, [],
          ["[NATIVE] Unknown action: " ++ m.action]⟩ := by
  simp [handleParsed, hact]

/-- Witness for the amended C5 at a concrete unknown action. -/
theorem unknown_action_response_witness :
    handleParsed execFail ⟨"ping", none, none⟩
      = ⟨⟨false, some "Unknown action", none⟩, [],
          ["[NATIVE] Unknown action: " ++ "ping"]⟩ :=
  unknown_action_response execFail ⟨"ping", none, none⟩ (by decide)

/-- Claim C6: the subprocess runner classifies outcomes exhaustively — a
    nonzero exit with stderr `E` yields success=false with a message containing
    `E` and no file path; a zero exit whose reported path is empty yields the
    distinct failure that the tool produced no path. -/
theorem runner_failure_classification (exec : ExecOracle) (m : NativeMessage)
    (u d : String) (hact : m.action = "download") (hu : m.url = some u)
    (hd : m.output_path = some d) :
    (∀ S E, exec "yt-dlp" (ytDlpArgs u d) = .ok ⟨false, S, E⟩ →
      (handleParsed exec m).response
          = ⟨false, some ("yt-dlp failed: " ++ E), none⟩
        ∧ ∃ p, "yt-dlp failed: " ++ E = p ++ E)
    ∧ (∀ S E, exec "yt-dlp" (ytDlpArgs u d) = .ok ⟨true, S, E⟩ →
        rustTrim S = "" →
      download_video exec u d = .error "yt-dlp did not return a file path"
        ∧ (handleParsed exec m).response
            = ⟨false, some "yt-dlp did not return a file path", none⟩) := by
  constructor
  · intro S E hrun
    have hdv : download_video exec u d
        = .error ("yt-dlp failed: " ++ E) := by
      unfold download_video
      rw [hrun]
      simp
    exact ⟨by simp [handleParsed, hact, hu, hd, hdv], "yt-dlp failed: ", rfl⟩
  · intro S E hrun htrim
    have hdv : download_video exec u d
        = .error "yt-dlp did not return a file path" := by
      unfold download_video
      rw [hrun]
      simp [htrim]
    exact ⟨hdv, by simp [handleParsed, hact, hu, hd, hdv]⟩

/-- Witness for C6: a nonzero exit with stderr "boom". -/
theorem runner_failure_classification_witness :
    (handleParsed execNonzero ⟨"download", some "u", some "d"⟩).response
        = ⟨false, some ("yt-dlp failed: " ++ "boom"), none⟩
      ∧ ∃ p, "yt-dlp failed: " ++ "boom" = p ++ "boom" :=
  (runner_failure_classification execNonzero ⟨"download", some "u", some "d"⟩
    "u" "d" rfl rfl rfl).1 "" "boom" rfl

/-- Claim C7: every response produced by the dispatcher — for any input text
    and any subprocess outcome — satisfies the invariant that success=true
    implies the file path is set and success=false implies the message is
    set. -/
theorem response_invariant (exec : ExecOracle) (msg : String) :
    ((handle_message exec msg).response.success = true →
      ((handle_message exec msg).response.file_path).isSome = true)
    ∧ ((handle_message exec msg).response.success = false →
      ((handle_message exec msg).response.message).isSome = true) := by
  unfold handle_message
  split
  · rename_i m h
    simpa using handleParsed_invariant exec m
  · simp

/-- Witness for C7: the failure response to the empty input has a message. -/
theorem response_invariant_witness :
    ((handle_message execFail "").response.message).isSome = true :=
  (response_invariant execFail "").2 rfl

/-- Claim C8: a frame whose body is not valid UTF-8 is silently discarded — no
    response is emitted for it — and the loop continues reading the subsequent
    input exactly as if the frame had not been there. -/
theorem invalid_utf8_frame_skipped (exec : ExecOracle) (len : Nat)
    (body rest : List Nat) (hlen : body.length = len)
    (hbound : len < 4294967296) (hbad : utf8Decode body = none) :
    handle_native_messaging exec (u32_to_ne_bytes len ++ (body ++ rest))
      = handle_native_messaging exec rest := by
  subst hlen
  have h2 := loop_step exec body rest hbound
  simp only [hbad] at h2
  rw [show u32_to_ne_bytes body.length ++ (body ++ rest)
      = writeFrame body ++ rest by simp [writeFrame]]
  exact h2

/-- Witness for C8: the lone byte 0xFF is not valid UTF-8; its frame produces
    no response and leaves the loop running on the rest. -/
theorem invalid_utf8_frame_skipped_witness :
    handle_native_messaging execFail
        (u32_to_ne_bytes 1 ++ ([255] ++ [1, 0, 0, 0, 65]))
      = handle_native_messaging execFail [1, 0, 0, 0, 65] :=
  invalid_utf8_frame_skipped execFail 1 [255] [1, 0, 0, 0, 65]
    (by decide) (by decide) (by decide)

/-- Claim C9 (amended: the output path key is the snake-case "output_path" of
    the Rust field, not "outputPath"): for every url string `u` and every
    output-path string `p`, a request JSON carrying action "download", the url
    `u` and the output path under the key "output_path" — the canonical
    encoding of `u` and `p`, and likewise any JSON text whose fields decode to
    them — parses to the full download message, is accepted (not rejected as
    missing a parameter) and is dispatched to the subprocess runner. -/
theorem download_request_accepted (exec : ExecOracle) (u p : String) :
    from_str_NativeMessage (mkDownloadRequestJson u p)
        = .ok ⟨"download", some u, some p⟩
      ∧ (handle_message exec (mkDownloadRequestJson u p)).invocations
          = [⟨"yt-dlp", ytDlpArgs u p⟩]
      ∧ ∀ s : String,
          from_str_NativeMessage s = .ok ⟨"download", some u, some p⟩ →
          (handle_message exec s).invocations = [⟨"yt-dlp", ytDlpArgs u p⟩] := by
  have hgen : ∀ s : String,
      from_str_NativeMessage s = .ok ⟨"download", some u, some p⟩ →
      (handle_message exec s).invocations = [⟨"yt-dlp", ytDlpArgs u p⟩] := by
    intro s hs
    simp only [handle_message, hs]
    cases hdv : download_video exec u p <;> simp [handleParsed, hdv]
  exact ⟨from_str_mkDownloadRequestJson u p,
    hgen _ (from_str_mkDownloadRequestJson u p), hgen⟩

/-- Witness for the amended C9: the concrete snake-case request is dispatched
    with the yt-dlp invocation for its url and output path. -/
theorem download_request_accepted_witness :
    (handle_message execFail snakeKeyJson).invocations
      = [⟨"yt-dlp", ytDlpArgs "u" "p"⟩] :=
  (download_request_accepted execFail "u" "p").2.2 snakeKeyJson rfl

/-- Counterexample to C9 as stated: the same request with the path under the
    key "outputPath" parses with `output_path = none` (serde ignores the
    unknown key), so it is rejected as missing a parameter and never reaches
    the subprocess runner. -/
theorem download_request_key_counterexample :
    from_str_NativeMessage camelKeyJson = .ok ⟨"download", some "u", none⟩
      ∧ (handle_message execFail camelKeyJson).response
          = ⟨false, some "Missing url or output_path", none⟩
      ∧ (handle_message execFail camelKeyJson).invocations = [] :=
  ⟨rfl, rfl, rfl⟩

/-- Claim C10: a frame with length prefix 0 is not end-of-stream — its empty
    body decodes to the empty string, which fails JSON parsing, so the
    dispatcher emits a success=false parse-failure response and the loop
    continues with the remaining input. -/
theorem zero_length_frame_not_eof (exec : ExecOracle) (rest : List Nat) :
    handle_native_messaging exec (u32_to_ne_bytes 0 ++ rest)
      = ⟨false, some "Failed to parse message: EOF while parsing a value", none⟩
        :: handle_native_messaging exec rest := by
  have h2 := loop_step exec [] rest (by decide)
  have hdec : utf8Decode [] = some [] := rfl
  simp only [hdec] at h2
  have hresp : (handle_message exec (String.mk [])).response
      = ⟨false, some "Failed to parse message: EOF while parsing a value",
          none⟩ := rfl
  rw [hresp] at h2
  rw [show u32_to_ne_bytes 0 ++ rest = writeFrame [] ++ rest by rfl]
  exact h2
